import Mathlib

set_option maxRecDepth 8000

/-!
Verification of the failover request engine of the rqlite HTTP client
(`src/http-request/index.ts`).  The definitions below are a shallow
embedding of that module: JavaScript numbers that only ever hold
integers are modelled as `Int`/`Nat`, JavaScript strings as `String`
(with character-level helpers on `List Char` where induction is
needed), `Set` fields as `List`, optional values as `Option`, and the
asynchronous `fetch` method as a step function from the transport
outcome of one attempt to the engine's decision for that attempt.
-/

/-! ## Character-level string helpers

`String.prototype.split`, `trim`, and `replace(/\/$/,'')` are modelled
by structurally recursive functions on `List Char` so that they both
evaluate inside the kernel and support induction.  JavaScript `trim`
strips a slightly larger whitespace set than `Char.isWhitespace`
(e.g. ` `); the hosts handled by this client never contain those
characters, and both pipelines compared below use the same `trim`.
-/

/-- Model of `s.split(',')` on character lists: `splitComma []` is
`[[]]`, matching JavaScript where `''.split(',')` is `['']`. -/
def splitComma : List Char → List (List Char)
  | [] => [[]]
  | c :: cs =>
    if c = ',' then [] :: splitComma cs
    else
      match splitComma cs with
      | [] => [[c]]
      | h :: t => (c :: h) :: t

/-- Model of `list.join(',')` on character lists. -/
def joinCommaChars : List (List Char) → List Char
  | [] => []
  | s :: rest =>
    match rest with
    | [] => s
    | _ :: _ => s ++ ',' :: joinCommaChars rest

/-- The comma-joined string of a list of host strings (`hosts.join(',')`). -/
def joinComma (l : List String) : String :=
  String.mk (joinCommaChars (l.map String.data))

/-- Model of `String.prototype.trim`. -/
def trimChars (cs : List Char) : List Char :=
  ((cs.dropWhile Char.isWhitespace).reverse.dropWhile Char.isWhitespace).reverse

/-- Model of `.replace(/\/$/, '')`: strip one trailing slash. -/
def stripTrailingSlash (cs : List Char) : List Char :=
  match cs.reverse with
  | '/' :: rest => rest.reverse
  | _ => cs

/-- One entry of `setHosts`' `flatMap` body
(`src/http-request/index.ts:466-470`): trim, strip one trailing slash,
drop the entry when the result is the empty string (falsy in JS). -/
def normalizeHostEntry (cs : List Char) : Option String :=
  match stripTrailingSlash (trimChars cs) with
  | [] => none
  | h => some (String.mk h)

/-- The two accepted shapes of the constructor's `hosts` argument. -/
inductive HostsInput where
  | str (s : String)
  | arr (l : List String)
deriving DecidableEq

/-- Embeds `setHosts` (`src/http-request/index.ts:464-471`): a string is
split on commas, an array is used as is; every entry is trimmed, loses
one trailing slash, and is dropped if it becomes empty. -/
def setHosts : HostsInput → List String
  | .str s => (splitComma s.data).filterMap normalizeHostEntry
  | .arr l => l.filterMap (fun s => normalizeHostEntry s.data)

/-! ## Retry policy -/

/-- `RETRYABLE_ERROR_CODES` (`src/http-request/retryable`). -/
def RETRYABLE_ERROR_CODES : List String :=
  ["EADDRINUSE", "EAI_AGAIN", "ECONNREFUSED", "ECONNRESET",
   "ENETUNREACH", "ENOTFOUND", "EPIPE", "ETIMEDOUT"]

/-- `RETRYABLE_STATUS_CODES` (`src/http-request/retryable`). -/
def RETRYABLE_STATUS_CODES : List Nat :=
  [408, 413, 429, 500, 502, 503, 504, 521, 522, 524]

/-- `RETRYABLE_HTTP_METHODS` (`src/http-request/retryable`). -/
def RETRYABLE_HTTP_METHODS : List String :=
  ["DELETE", "GET", "HEAD", "OPTIONS", "PATCH", "POST", "PUT"]

/-- `statusCode && set.has(statusCode)`: in JavaScript the guard makes a
status code of `0` (falsy) skip the membership test. -/
def optTruthyMemNat (x : Option Nat) (l : List Nat) : Bool :=
  match x with
  | some v => v != 0 && l.contains v
  | none => false

/-- `errorCode && set.has(errorCode)`: an empty string is falsy and
skips the membership test. -/
def optTruthyMemStr (x : Option String) (l : List String) : Bool :=
  match x with
  | some v => v != "" && l.contains v
  | none => false

/-- Plain membership of an optional value, following the spec's words
"`statusCode` is in the retryable-status set" (no falsiness guard);
used to compare the spec's formula with `requestIsRetryable`. -/
def optMemNat (x : Option Nat) (l : List Nat) : Bool :=
  match x with
  | some v => l.contains v
  | none => false

/-- Plain membership of an optional error code, following the spec's
words; see `optMemNat`. -/
def optMemStr (x : Option String) (l : List String) : Bool :=
  match x with
  | some v => l.contains v
  | none => false

/-- Embeds `getWaitTimeExponential`
(`src/http-request/index.ts:161-170`): `0` for attempt `0`, otherwise
`pow ** attempt * base`. -/
def getWaitTimeExponential (attempt base pow : Nat) : Nat :=
  if attempt = 0 then 0 else pow ^ attempt * base

/-! ## The HttpRequest state -/

/-- The mutable state of an `HttpRequest` instance
(`src/http-request/index.ts:177-250`).  Fields that never influence the
control flow under study (agents, authentication, timeouts) are
omitted.  The two indices are `Int` because the setters accept any
finite JavaScript number and clamp it. -/
structure HttpRequest where
  hosts : List String
  activeHostIndex : Int
  leaderHostIndex : Int
  activeHostRoundRobin : Bool
  retryableErrorCodes : List String
  retryableStatusCodes : List Nat
  retryableHttpMethods : List String
  exponentailBackoffBase : Nat
deriving DecidableEq

/-- `getTotalHosts` (`src/http-request/index.ts:626-628`). -/
def HttpRequest.getTotalHosts (self : HttpRequest) : Nat :=
  self.hosts.length

/-- Embeds the constructor (`src/http-request/index.ts:273-339`) for a
caller that only supplies hosts: normalizes the hosts and throws
`At least one host must be provided` when none remain; all other
fields take their class defaults. -/
def HttpRequest.construct (input : HostsInput) : Except String HttpRequest :=
  let hosts := setHosts input
  if hosts.length = 0 then .error "At least one host must be provided"
  else
    .ok { hosts := hosts
          activeHostIndex := 0
          leaderHostIndex := 0
          activeHostRoundRobin := true
          retryableErrorCodes := RETRYABLE_ERROR_CODES
          retryableStatusCodes := RETRYABLE_STATUS_CODES
          retryableHttpMethods := RETRYABLE_HTTP_METHODS
          exponentailBackoffBase := 100 }

/-- Embeds `setActiveHostIndex` (`src/http-request/index.ts:516-531`):
negative indices clamp to `0`, indices `>= totalHosts` clamp to
`totalHosts - 1`.  The `Number.isFinite` check always passes for an
`Int` argument. -/
def HttpRequest.setActiveHostIndex (self : HttpRequest) (i : Int) : HttpRequest :=
  let total : Int := self.getTotalHosts
  if i < 0 then { self with activeHostIndex := 0 }
  else if total ≤ i then { self with activeHostIndex := total - 1 }
  else { self with activeHostIndex := i }

/-- Embeds `setLeaderHostIndex` (`src/http-request/index.ts:546-559`).
The upper guard in the source is `leaderHostIndex > totalHosts`, a
strict comparison (unlike the `>=` of `setActiveHostIndex`), so an
argument equal to `totalHosts` is stored unchanged. -/
def HttpRequest.setLeaderHostIndex (self : HttpRequest) (i : Int) : HttpRequest :=
  let total : Int := self.getTotalHosts
  if i < 0 then { self with leaderHostIndex := 0 }
  else if total < i then { self with leaderHostIndex := total - 1 }
  else { self with leaderHostIndex := i }

/-- `getNextActiveHostIndex` (`src/http-request/index.ts:594-604`) at
its default argument (the current active index): the incremented index,
wrapping to `0` exactly when it equals the host count. -/
def HttpRequest.getNextActiveHostIndex (self : HttpRequest) : Int :=
  let nextIndex := self.activeHostIndex + 1
  if (self.getTotalHosts : Int) = nextIndex then 0 else nextIndex

/-- Embeds `setNextActiveHostIndex` (`src/http-request/index.ts:610-620`):
a no-op when round robin is disabled, or enabled with at most one host;
otherwise stores the next index through `setActiveHostIndex`. -/
def HttpRequest.setNextActiveHostIndex (self : HttpRequest) : HttpRequest :=
  if self.activeHostRoundRobin = false then self
  else if self.activeHostRoundRobin = true ∧ self.getTotalHosts ≤ 1 then self
  else self.setActiveHostIndex self.getNextActiveHostIndex

/-- Embeds `requestIsRetryable` (`src/http-request/index.ts:646-665`).
The http method is always a string at the call sites modelled here
(`fetch` defaults it to `GET`). -/
def HttpRequest.requestIsRetryable (self : HttpRequest)
    (statusCode : Option Nat) (errorCode : Option String)
    (httpMethod : String) : Bool :=
  if ! self.retryableHttpMethods.contains httpMethod then false
  else if optTruthyMemNat statusCode self.retryableStatusCodes then true
  else if optTruthyMemStr errorCode self.retryableErrorCodes then true
  else false

/-! ## URL parsing and host lookup

`findHostIndex` delegates to Node's legacy `url.parse` and compares the
`hostname`, `protocol`, `port` and `path` fields.  `parseUrl` below
models `url.parse` on the URL shapes this client handles,
`scheme://hostname[:port][/path]`: Node normalizes an absent path to
`"/"` (`url.parse('http://h').path === '/'`), reports the protocol with
its trailing colon, and splits the authority at its last colon.  A
string without `://` yields no fields here (Node would attempt other
interpretations; no such string is compared in this development). -/

structure ParsedUrl where
  protocol : Option String
  hostname : Option String
  port : Option String
  path : Option String
deriving DecidableEq

/-- Splits `scheme://rest` at the first occurrence of `://`; the first
argument accumulates the scheme seen so far, reversed. -/
def splitSchemeAux : List Char → List Char → Option (List Char × List Char)
  | acc, ':' :: '/' :: '/' :: rest => some (acc.reverse, rest)
  | acc, c :: rest => splitSchemeAux (c :: acc) rest
  | _, [] => none

/-- Model of Node's legacy `url.parse`, restricted to the four fields
`findHostIndex` compares; see the section comment for the scope. -/
def parseUrl (url : String) : ParsedUrl :=
  match splitSchemeAux [] url.data with
  | none => { protocol := none, hostname := none, port := none, path := none }
  | some (scheme, rest) =>
    let auth := rest.takeWhile (fun c => c != '/')
    let after := rest.dropWhile (fun c => c != '/')
    let path : Option String :=
      match after with
      | [] => some "/"
      | _ => some (String.mk after)
    let hostname :=
      if auth.contains ':' then ((auth.reverse.dropWhile (fun c => c != ':')).drop 1).reverse
      else auth
    let port : Option String :=
      if auth.contains ':' then some (String.mk ((auth.reverse.takeWhile (fun c => c != ':')).reverse))
      else none
    { protocol := some (String.mk (scheme ++ [':']))
      hostname := some (String.mk hostname)
      port := port
      path := path }

/-- Embeds `findHostIndex` (`src/http-request/index.ts:486-495`): the
index of the first host whose parsed `hostname`, `protocol`, `port` and
`path` all equal those of the argument, or `-1`. -/
def HttpRequest.findHostIndex (self : HttpRequest) (host : String) : Int :=
  let p := parseUrl host
  match self.hosts.findIdx? (fun v =>
      let q := parseUrl v
      q.hostname == p.hostname && q.protocol == p.protocol
        && q.port == p.port && q.path == p.path) with
  | some i => Int.ofNat i
  | none => -1

/-- Embeds `uriIsAbsolute` (`src/http-request/index.ts:634-636`), the
test against `/^https?:\/\//`. -/
def uriIsAbsolute (uri : String) : Bool :=
  List.isPrefixOf "http://".data uri.data || List.isPrefixOf "https://".data uri.data

/-- Embeds `cleanPath` (`src/http-request/index.ts:149-151`): drop one
leading slash. -/
def cleanPath (path : String) : String :=
  match path.data with
  | '/' :: rest => String.mk rest
  | _ => path

/-- JavaScript array indexing with a possibly negative number:
out-of-range access yields `undefined`, modelled as `none`. -/
def intGet? (l : List String) (i : Int) : Option String :=
  match i with
  | .ofNat n => l[n]?
  | .negSucc _ => none

/-- Embeds `getActiveHost` (`src/http-request/index.ts:503-509`). -/
def HttpRequest.getActiveHost (self : HttpRequest) (useLeader : Bool) : Option String :=
  intGet? self.hosts (if useLeader then self.leaderHostIndex else self.activeHostIndex)

/-! ## One attempt of `fetch`

`fetch` (`src/http-request/index.ts:674-804`) is asynchronous and
recursive; each recursion level performs exactly one transport attempt
and then either returns, throws, or recurses with rewritten options.
`fetchStep` embeds that one level as a pure function of the instance
state, the (default-resolved) options, and the transport outcome of the
attempt; recursion and waiting appear as `redirect`/`retry` decisions
carrying the exact options object of the recursive call. -/

/-- The options of one `fetch` invocation after the destructuring
defaults of `src/http-request/index.ts:677-694` have been resolved
(request body, headers, query, stream flag, timeout and agents are
omitted: they never influence the control flow modelled here). -/
structure FetchOptions where
  uri : Option String
  httpMethod : String
  useLeader : Bool
  retries : Nat
  maxRedirects : Nat
  attempt : Nat
  retryAttempt : Nat
  redirectAttempt : Nat
  attemptHostIndex : Option Int
  exponentailBackoffBase : Nat
deriving DecidableEq

/-- The transport outcome of one attempt: a response passed through by
axios, or a failure carrying the response status, the (lowercased)
`location` response header, and the transport error code. -/
inductive TransportResult where
  | success (status : Nat) (body : String)
  | failure (responseStatus : Option Nat) (location : Option String) (errorCode : Option String)
deriving DecidableEq

/-- The decision `fetch` takes for one attempt. -/
inductive FetchOutcome where
  /-- Return `{status, body}` to the caller. -/
  | result (status : Nat) (body : String)
  /-- Throw `The uri option is required` (`src/http-request/index.ts:700-703`). -/
  | uriRequiredError
  /-- Throw `ERROR_HTTP_REQUEST_MAX_REDIRECTS` (`src/http-request/index.ts:761-765`). -/
  | maxRedirectsError
  /-- Throw the `TypeError` raised by Node's `url.parse` when
  `findHostIndex` is called with `undefined` (no `location` header on a
  leader request, `src/http-request/index.ts:771-777`). -/
  | urlParseTypeError
  /-- Recurse on the redirect path with the updated instance state and
  the options of the recursive call (`src/http-request/index.ts:778-784`). -/
  | redirect (state : HttpRequest) (next : FetchOptions)
  /-- Wait `waitTime` then recurse on the retry path
  (`src/http-request/index.ts:786-800`). -/
  | retry (state : HttpRequest) (waitTime : Nat) (next : FetchOptions)
  /-- Rethrow the original failure to the caller (`src/http-request/index.ts:802`). -/
  | rethrow
deriving DecidableEq

/-- `nextAttemptHostIndex` as computed in the catch block
(`src/http-request/index.ts:748-757`): one past the supplied
`attemptHostIndex` (or the pool's active index), wrapping to `0`
exactly when the increment equals the host count. -/
def nextAttemptHostIndexOf (self : HttpRequest) (o : FetchOptions) : Int :=
  let base :=
    match o.attemptHostIndex with
    | some i => i
    | none => self.activeHostIndex
  if base + 1 = (self.getTotalHosts : Int) then 0 else base + 1

/-- The URL actually dispatched for one attempt
(`src/http-request/index.ts:696-705`): an absolute URI is used
verbatim, a relative one is joined to the attempt host; `none` when the
uri option is missing (the call throws instead).  A missing host
renders as the string `undefined` inside the template literal. -/
def resolveRequestUri (self : HttpRequest) (o : FetchOptions) : Option String :=
  match o.uri with
  | none => none
  | some u =>
    let activeHost :=
      match o.attemptHostIndex with
      | some i => intGet? self.hosts i
      | none => self.getActiveHost o.useLeader
    if uriIsAbsolute u then some u
    else some ((activeHost.getD "undefined") ++ "/" ++ cleanPath u)

/-- Embeds one level of `fetch` (`src/http-request/index.ts:674-804`);
see the section comment.  The order of the checks is the source's: the
missing-uri throw precedes the dispatch, a 301/302 is handled before
(and instead of) the retryable check, and the redirect budget is
checked before the `location` header is read. -/
def fetchStep (self : HttpRequest) (o : FetchOptions) (tr : TransportResult) : FetchOutcome :=
  match o.uri with
  | none => .uriRequiredError
  | some _ =>
    match tr with
    | .success status body => .result status body
    | .failure responseStatus location errorCode =>
      let retryable := self.requestIsRetryable responseStatus errorCode o.httpMethod
      let nextIdx := nextAttemptHostIndexOf self o
      if responseStatus = some 301 ∨ responseStatus = some 302 then
        if o.maxRedirects ≤ o.redirectAttempt then .maxRedirectsError
        else if o.useLeader then
          match location with
          | none => .urlParseTypeError
          | some loc =>
            let i := self.findHostIndex loc
            let self1 := if -1 < i then self.setLeaderHostIndex i else self
            .redirect self1
              { o with uri := location, attempt := o.attempt + 1
                       redirectAttempt := o.redirectAttempt + 1
                       attemptHostIndex := some nextIdx }
        else
          .redirect self
            { o with uri := location, attempt := o.attempt + 1
                     redirectAttempt := o.redirectAttempt + 1
                     attemptHostIndex := some nextIdx }
      else if retryable = true ∧ o.retryAttempt < o.retries then
        .retry self (getWaitTimeExponential o.retryAttempt o.exponentailBackoffBase 2)
          { o with attempt := o.attempt + 1
                   retryAttempt := o.retryAttempt + 1
                   attemptHostIndex := some nextIdx }
      else .rethrow

/-! ## Concrete instances used by the closed theorems -/

/-- A three-host pool with default configuration, leader at index 0. -/
def poolABC : HttpRequest :=
  { hosts := ["http://a:4001", "http://b:4001", "http://c:4001"]
    activeHostIndex := 0
    leaderHostIndex := 0
    activeHostRoundRobin := true
    retryableErrorCodes := RETRYABLE_ERROR_CODES
    retryableStatusCodes := RETRYABLE_STATUS_CODES
    retryableHttpMethods := RETRYABLE_HTTP_METHODS
    exponentailBackoffBase := 100 }

/-- A one-host pool with default configuration. -/
def localhostPool : HttpRequest :=
  { hosts := ["http://localhost:4001"]
    activeHostIndex := 0
    leaderHostIndex := 0
    activeHostRoundRobin := true
    retryableErrorCodes := RETRYABLE_ERROR_CODES
    retryableStatusCodes := RETRYABLE_STATUS_CODES
    retryableHttpMethods := RETRYABLE_HTTP_METHODS
    exponentailBackoffBase := 100 }

/-- `localhostPool` with a retryable-status set containing `0`. -/
def poolStatusZero : HttpRequest :=
  { localhostPool with retryableStatusCodes := [0] }

/-- Default-resolved options of a leader request for `/db/query`
against `poolABC` (retries defaults to `3 * 3`, maxRedirects to 10). -/
def oLeader : FetchOptions :=
  { uri := some "/db/query"
    httpMethod := "GET"
    useLeader := true
    retries := 9
    maxRedirects := 10
    attempt := 0
    retryAttempt := 0
    redirectAttempt := 0
    attemptHostIndex := none
    exponentailBackoffBase := 100 }

/-- `oLeader` with the redirect budget set to zero. -/
def oNoRedirects : FetchOptions :=
  { oLeader with maxRedirects := 0, useLeader := false }

/-- Concrete host list exercising trimming, trailing-slash stripping
and empty-entry dropping. -/
def l8 : List String := [" http://a:4001/", "http://b:4001 ", "  "]

/-! ## Theorems -/

/-- C1: the claim says `setLeaderHostIndex(i)` clamps `i` into
`[0, hostCount-1]`, in particular `setLeaderHostIndex(hostCount)`
leaves the leader index in range.  The code violates this: with 3
hosts, `setLeaderHostIndex(3)` stores `3` (its upper guard is the
strict `leaderHostIndex > totalHosts`), an out-of-bounds index, while
the sibling `setActiveHostIndex(3)` clamps to `2` and arguments
strictly above the count do clamp. -/
theorem c1_divergence :
    (poolABC.setLeaderHostIndex 3).leaderHostIndex = 3 ∧
    ¬ (poolABC.setLeaderHostIndex 3).leaderHostIndex < (poolABC.getTotalHosts : Int) ∧
    (poolABC.setActiveHostIndex 3).activeHostIndex = 2 ∧
    (poolABC.setLeaderHostIndex 4).leaderHostIndex = 2 ∧
    (poolABC.setLeaderHostIndex (-5)).leaderHostIndex = 0 := by
  decide

/-- C2: with hosts `a, b, c` and leader index 0, a `useLeader` request
answered by a 301 whose location is `http://c:4001/db/query` is indeed
re-dispatched to that absolute URL verbatim with `redirectAttempt = 1`;
but the pool state carried into the recursion is unchanged (leader
index still 0, not 2), because `findHostIndex` compares the parsed
`path` field (`/db/query` against the pool entry's `/`) and returns
`-1`; the same location without the request path would have matched at
index 2. -/
theorem c2_divergence :
    poolABC.leaderHostIndex = 0 ∧
    poolABC.hosts[2]? = some "http://c:4001" ∧
    uriIsAbsolute "http://c:4001/db/query" = true ∧
    poolABC.findHostIndex "http://c:4001/db/query" = -1 ∧
    fetchStep poolABC oLeader
        (.failure (some 301) (some "http://c:4001/db/query") none) =
      .redirect poolABC
        { oLeader with uri := some "http://c:4001/db/query", attempt := 1
                       redirectAttempt := 1, attemptHostIndex := some 1 } ∧
    resolveRequestUri poolABC
        { oLeader with uri := some "http://c:4001/db/query", attempt := 1
                       redirectAttempt := 1, attemptHostIndex := some 1 } =
      some "http://c:4001/db/query" ∧
    poolABC.findHostIndex "http://c:4001" = 2 := by
  decide

/-- C3 counterexample: with a retryable-status set containing `0` and
the default method set, a `GET` with status code `0` has its status
code in the retryable-status set, yet `requestIsRetryable` returns
`false`: the JavaScript guard `statusCode && ...` treats the falsy `0`
as absent, so the claimed iff fails at this input. -/
theorem c3_counterexample :
    poolStatusZero.retryableHttpMethods.contains "GET" = true ∧
    (optMemNat (some 0) poolStatusZero.retryableStatusCodes
      || optMemStr none poolStatusZero.retryableErrorCodes) = true ∧
    poolStatusZero.requestIsRetryable (some 0) none "GET" = false := by
  decide

/-- C3 amended: a method outside the retryable-method set always yields
`false`; for a member method the result is true iff the status code is
present, nonzero, and in the retryable-status set, or the error code is
present, nonempty, and in the retryable-error-code set (the falsiness
guard is the only amendment to the claim). -/
theorem c3_amended (p : HttpRequest) (statusCode : Option Nat)
    (errorCode : Option String) (m : String) :
    (p.retryableHttpMethods.contains m = false →
      p.requestIsRetryable statusCode errorCode m = false) ∧
    (p.retryableHttpMethods.contains m = true →
      p.requestIsRetryable statusCode errorCode m =
        (optTruthyMemNat statusCode p.retryableStatusCodes
          || optTruthyMemStr errorCode p.retryableErrorCodes)) := by
  constructor
  · intro h
    unfold HttpRequest.requestIsRetryable
    rw [h]
    rfl
  · intro h
    unfold HttpRequest.requestIsRetryable
    rw [h]
    cases ha : optTruthyMemNat statusCode p.retryableStatusCodes <;>
      cases hb : optTruthyMemStr errorCode p.retryableErrorCodes <;>
        simp [ha, hb]

/-- C3 witness: the amended characterization evaluated for a default
pool on `POST` with status 503. -/
theorem c3_witness :
    localhostPool.requestIsRetryable (some 503) none "POST" =
      (optTruthyMemNat (some 503) localhostPool.retryableStatusCodes
        || optTruthyMemStr none localhostPool.retryableErrorCodes) :=
  (c3_amended localhostPool (some 503) none "POST").2 (by decide)

/-- C4 counterexample: `waitTime(1, 100, 2)` is `200 = 2^1 * 100`, not
`4^1 * 100` as the claim states. -/
theorem c4_counterexample :
    getWaitTimeExponential 1 100 2 = 200 ∧
    ¬ getWaitTimeExponential 1 100 2 = 4 ^ 1 * 100 := by
  decide

/-- C4 amended: `waitTime(0, base, pow) = 0` and, for `n ≥ 1`,
`waitTime(n, base, 2) = 2^n * base` (the claim's `4^n` corrected to
`2^n`). -/
theorem c4_amended (n base pow : Nat) (hn : 1 ≤ n) :
    getWaitTimeExponential 0 base pow = 0 ∧
    getWaitTimeExponential n base 2 = 2 ^ n * base := by
  refine ⟨rfl, ?_⟩
  unfold getWaitTimeExponential
  rw [if_neg (by omega)]

/-- C4 witness: the amended formula at `n = 3`, `base = 7`. -/
theorem c4_witness :
    getWaitTimeExponential 0 7 5 = 0 ∧
    getWaitTimeExponential 3 7 2 = 2 ^ 3 * 7 :=
  c4_amended 3 7 5 (by decide)

/-- C10: the default retryable-method set is exactly the seven standard
methods, so with default configuration a `POST` is retryable for every
default retryable status code and every default retryable error code;
in particular `requestIsRetryable` with `POST` and status 503 is true
by default. -/
theorem c10_defaults :
    RETRYABLE_HTTP_METHODS = ["DELETE", "GET", "HEAD", "OPTIONS", "PATCH", "POST", "PUT"] ∧
    RETRYABLE_STATUS_CODES.all
      (fun s => localhostPool.requestIsRetryable (some s) none "POST") = true ∧
    RETRYABLE_ERROR_CODES.all
      (fun c => localhostPool.requestIsRetryable none (some c) "POST") = true ∧
    localhostPool.requestIsRetryable (some 503) none "POST" = true := by
  decide

/-- C5: `waitTime(n, base, exponent)` is `0` at `n = 0` and
`exponent^n * base` otherwise, and for positive base and exponent at
least 2 it is strictly increasing in the attempt and unbounded. -/
theorem c5_waitTime (base pow : Nat) (hb : 0 < base) (hp : 2 ≤ pow) :
    (∀ n, getWaitTimeExponential n base pow = if n = 0 then 0 else pow ^ n * base) ∧
    (∀ n m, n < m →
      getWaitTimeExponential n base pow < getWaitTimeExponential m base pow) ∧
    (∀ bound, ∃ n, bound < getWaitTimeExponential n base pow) := by
  refine ⟨fun n => rfl, ?_, ?_⟩
  · intro n m hnm
    unfold getWaitTimeExponential
    rcases Nat.eq_zero_or_pos n with h0 | h1
    · subst h0
      rw [if_pos rfl, if_neg (by omega)]
      exact Nat.mul_pos (Nat.pos_pow_of_pos m (by omega)) hb
    · rw [if_neg (by omega), if_neg (by omega)]
      exact Nat.mul_lt_mul_of_lt_of_le
        (Nat.pow_lt_pow_right (by omega) hnm) (Nat.le_refl base) hb
  · intro bound
    refine ⟨bound + 1, ?_⟩
    unfold getWaitTimeExponential
    rw [if_neg (by omega)]
    calc bound < 2 ^ (bound + 1) := by
          have h := Nat.lt_two_pow (bound + 1)
          omega
      _ ≤ pow ^ (bound + 1) := Nat.pow_le_pow_left hp _
      _ ≤ pow ^ (bound + 1) * base := Nat.le_mul_of_pos_right _ hb

/-- C5 witness: the characterization at `base = 100`, `pow = 2`. -/
theorem c5_witness :
    getWaitTimeExponential 3 100 2 = (if 3 = 0 then 0 else 2 ^ 3 * 100) ∧
    getWaitTimeExponential 1 100 2 < getWaitTimeExponential 2 100 2 :=
  ⟨(c5_waitTime 100 2 (by decide) (by decide)).1 3,
   (c5_waitTime 100 2 (by decide) (by decide)).2.1 1 2 (by decide)⟩

/-- C6: any 301/302 outcome whose `redirectAttempt` already meets the
redirect budget makes `fetch` throw `ERROR_HTTP_REQUEST_MAX_REDIRECTS`
at once: the attempt neither recurses nor reaches the backoff-retry
path (with `maxRedirects = 0` this happens on the very first
attempt). -/
theorem c6_maxRedirects (self : HttpRequest) (o : FetchOptions) (u : String)
    (st : Nat) (loc ec : Option String)
    (hu : o.uri = some u) (hst : st = 301 ∨ st = 302)
    (hr : o.maxRedirects ≤ o.redirectAttempt) :
    fetchStep self o (.failure (some st) loc ec) = .maxRedirectsError := by
  rcases hst with h | h <;> subst h <;> simp [fetchStep, hu, hr]

/-- C6 witness: `maxRedirects = 0` and a 302 on the first attempt. -/
theorem c6_witness :
    fetchStep poolABC oNoRedirects
      (.failure (some 302) (some "http://b:4001/db/query") none) =
      .maxRedirectsError :=
  c6_maxRedirects poolABC oNoRedirects "/db/query" 302
    (some "http://b:4001/db/query") none rfl (Or.inr rfl) (by decide)

/-- Pulling an integer out of one `%` in a sum: helper for the
round-robin iteration argument. -/
theorem emod_add_eq (a k t : Int) : (a % t + k) % t = (a + k) % t := by
  conv_lhs => rw [Int.add_emod, Int.emod_emod_of_dvd a dvd_rfl]
  rw [← Int.add_emod]

/-- `setNextActiveHostIndex` is the identity when round robin is off or
at most one host is configured. -/
theorem setNextActiveHostIndex_noop (self : HttpRequest)
    (h : self.activeHostRoundRobin = false ∨ self.getTotalHosts ≤ 1) :
    self.setNextActiveHostIndex = self := by
  unfold HttpRequest.setNextActiveHostIndex
  by_cases hrr : self.activeHostRoundRobin = false
  · rw [if_pos hrr]
  · have htrue : self.activeHostRoundRobin = true := by
      revert hrr; cases self.activeHostRoundRobin <;> simp
    rcases h with h | h
    · exact absurd h hrr
    · rw [if_neg hrr, if_pos ⟨htrue, h⟩]

/-- With round robin on and at least two hosts, one application of
`setNextActiveHostIndex` moves the active index to its successor modulo
the host count (for an in-range starting index). -/
theorem setNextActiveHostIndex_step (self : HttpRequest)
    (hrr : self.activeHostRoundRobin = true) (h2 : 2 ≤ self.getTotalHosts)
    (h0 : 0 ≤ self.activeHostIndex)
    (h1 : self.activeHostIndex < (self.getTotalHosts : Int)) :
    self.setNextActiveHostIndex =
      { self with activeHostIndex :=
          (self.activeHostIndex + 1) % (self.getTotalHosts : Int) } := by
  unfold HttpRequest.setNextActiveHostIndex
  rw [if_neg (by simp [hrr]), if_neg (by rintro ⟨-, hle⟩; omega)]
  unfold HttpRequest.getNextActiveHostIndex
  by_cases heq : (self.getTotalHosts : Int) = self.activeHostIndex + 1
  · rw [if_pos heq]
    unfold HttpRequest.setActiveHostIndex
    rw [if_neg (by omega), if_neg (by omega)]
    congr 1
    rw [← heq, Int.emod_self]
  · rw [if_neg heq]
    unfold HttpRequest.setActiveHostIndex
    rw [if_neg (by omega), if_neg (by omega)]
    congr 1
    rw [Int.emod_eq_of_lt (by omega) (by omega)]

/-- Iterating `setNextActiveHostIndex` `k` times advances the active
index by `k` modulo the host count (round robin on, at least two
hosts, in-range starting index). -/
theorem setNextActiveHostIndex_iterate (k : Nat) :
    ∀ self : HttpRequest, self.activeHostRoundRobin = true →
    2 ≤ self.getTotalHosts → 0 ≤ self.activeHostIndex →
    self.activeHostIndex < (self.getTotalHosts : Int) →
    Nat.iterate HttpRequest.setNextActiveHostIndex k self =
      { self with activeHostIndex :=
          (self.activeHostIndex + (k : Int)) % (self.getTotalHosts : Int) } := by
  induction k with
  | zero =>
    intro self hrr h2 h0 h1
    rw [Function.iterate_zero_apply]
    have hmod : (self.activeHostIndex + ((0 : Nat) : Int)) % (self.getTotalHosts : Int) =
        self.activeHostIndex := by
      rw [Nat.cast_zero, Int.add_zero, Int.emod_eq_of_lt h0 h1]
    rw [hmod]
  | succ k ih =>
    intro self hrr h2 h0 h1
    rw [Function.iterate_succ_apply]
    rw [setNextActiveHostIndex_step self hrr h2 h0 h1]
    have htpos : (0 : Int) < (self.getTotalHosts : Int) := by omega
    have h0' : 0 ≤ (self.activeHostIndex + 1) % (self.getTotalHosts : Int) :=
      Int.emod_nonneg _ (by omega)
    have h1' : (self.activeHostIndex + 1) % (self.getTotalHosts : Int) <
        (self.getTotalHosts : Int) := Int.emod_lt_of_pos _ htpos
    rw [ih { self with activeHostIndex :=
        (self.activeHostIndex + 1) % (self.getTotalHosts : Int) } hrr h2 h0' h1']
    congr 1
    show ((self.activeHostIndex + 1) % (self.getTotalHosts : Int) + (k : Int)) %
        (self.getTotalHosts : Int) =
      (self.activeHostIndex + ((k + 1 : Nat) : Int)) % (self.getTotalHosts : Int)
    rw [emod_add_eq]
    congr 1
    push_cast
    ring

/-- C7: for an in-range active index, `setNextActiveHostIndex` is a
no-op when round robin is disabled or at most one host is configured,
otherwise it advances the active index to `(active + 1) mod hostCount`;
consequently `hostCount` applications return the active index to its
starting value. -/
theorem c7_roundRobin (self : HttpRequest)
    (h0 : 0 ≤ self.activeHostIndex)
    (h1 : self.activeHostIndex < (self.getTotalHosts : Int)) :
    (self.activeHostRoundRobin = false ∨ self.getTotalHosts ≤ 1 →
      self.setNextActiveHostIndex = self) ∧
    (self.activeHostRoundRobin = true ∧ 2 ≤ self.getTotalHosts →
      self.setNextActiveHostIndex =
        { self with activeHostIndex :=
            (self.activeHostIndex + 1) % (self.getTotalHosts : Int) }) ∧
    (Nat.iterate HttpRequest.setNextActiveHostIndex self.getTotalHosts self).activeHostIndex =
      self.activeHostIndex := by
  refine ⟨setNextActiveHostIndex_noop self,
    fun h => setNextActiveHostIndex_step self h.1 h.2 h0 h1, ?_⟩
  by_cases hcase : self.activeHostRoundRobin = true ∧ 2 ≤ self.getTotalHosts
  · rw [setNextActiveHostIndex_iterate self.getTotalHosts self hcase.1 hcase.2 h0 h1]
    show (self.activeHostIndex + (self.getTotalHosts : Int)) % (self.getTotalHosts : Int) =
      self.activeHostIndex
    rw [Int.add_emod, Int.emod_self, Int.add_zero,
      Int.emod_emod_of_dvd self.activeHostIndex dvd_rfl, Int.emod_eq_of_lt h0 h1]
  · have hnoop : self.setNextActiveHostIndex = self := by
      rcases not_and_or.mp hcase with h | h
      · refine setNextActiveHostIndex_noop self (Or.inl ?_)
        revert h; cases self.activeHostRoundRobin <;> simp
      · exact setNextActiveHostIndex_noop self (Or.inr (by omega))
    rw [Function.iterate_fixed hnoop self.getTotalHosts]

/-- C7 witness: the round-robin characterization at the concrete
three-host pool. -/
theorem c7_witness :
    (Nat.iterate HttpRequest.setNextActiveHostIndex poolABC.getTotalHosts poolABC).activeHostIndex =
      poolABC.activeHostIndex ∧
    poolABC.setNextActiveHostIndex =
      { poolABC with activeHostIndex :=
          (poolABC.activeHostIndex + 1) % (poolABC.getTotalHosts : Int) } :=
  ⟨(c7_roundRobin poolABC (by decide) (by decide)).2.2,
   (c7_roundRobin poolABC (by decide) (by decide)).2.1 ⟨rfl, by decide⟩⟩

/-- `splitComma` never produces the empty list of segments. -/
theorem splitComma_ne_nil (cs : List Char) : splitComma cs ≠ [] := by
  cases cs with
  | nil => simp [splitComma]
  | cons c cs =>
    by_cases hc : c = ','
    · simp [splitComma, hc]
    · simp only [splitComma, if_neg hc]
      cases h : splitComma cs with
      | nil => simp
      | cons a t => simp

/-- A comma-free string is a single segment of `splitComma`. -/
theorem splitComma_of_no_comma (cs : List Char) (h : ',' ∉ cs) :
    splitComma cs = [cs] := by
  induction cs with
  | nil => rfl
  | cons c cs ih =>
    have hc : ¬ c = ',' := by
      rintro rfl; exact h (List.mem_cons_self _ _)
    have hcs : ',' ∉ cs := fun m => h (List.mem_cons_of_mem _ m)
    simp only [splitComma, if_neg hc, ih hcs]

/-- Splitting at an explicit comma after a comma-free segment peels the
segment off. -/
theorem splitComma_append (xs ys : List Char) (h : ',' ∉ xs) :
    splitComma (xs ++ ',' :: ys) = xs :: splitComma ys := by
  induction xs with
  | nil => simp [splitComma]
  | cons c xs ih =>
    have hc : ¬ c = ',' := by
      rintro rfl; exact h (List.mem_cons_self _ _)
    have hxs : ',' ∉ xs := fun m => h (List.mem_cons_of_mem _ m)
    simp only [List.cons_append, splitComma, if_neg hc]
    rw [show List.append xs (',' :: ys) = xs ++ ',' :: ys from rfl, ih hxs]

/-- Splitting the comma-join of comma-free segments recovers the
segments. -/
theorem splitComma_joinCommaChars (l : List (List Char)) (hne : l ≠ [])
    (h : ∀ cs ∈ l, ',' ∉ cs) :
    splitComma (joinCommaChars l) = l := by
  induction l with
  | nil => exact absurd rfl hne
  | cons x rest ih =>
    cases rest with
    | nil =>
      rw [show joinCommaChars [x] = x from rfl]
      exact splitComma_of_no_comma x (h x (List.mem_cons_self _ _))
    | cons y rest2 =>
      rw [show joinCommaChars (x :: y :: rest2) = x ++ ',' :: joinCommaChars (y :: rest2) from rfl]
      rw [splitComma_append x _ (h x (List.mem_cons_self _ _))]
      rw [ih (by simp) (fun cs m => h cs (List.mem_cons_of_mem _ m))]

/-- C8: for comma-free host strings, configuring with the array and
with the comma-joined string produce the same normalized host sequence
(trimmed, one trailing slash stripped, empty entries dropped), and
construction fails with `At least one host must be provided` exactly
when that sequence is empty. -/
theorem c8_setHosts (l : List String) (h : ∀ s ∈ l, ',' ∉ s.data) :
    setHosts (.str (joinComma l)) = setHosts (.arr l) ∧
    ∀ input, HttpRequest.construct input = .error "At least one host must be provided" ↔
      setHosts input = [] := by
  constructor
  · cases l with
    | nil => rfl
    | cons s rest =>
      show (splitComma (joinComma (s :: rest)).data).filterMap normalizeHostEntry =
        (s :: rest).filterMap (fun t => normalizeHostEntry t.data)
      rw [show (joinComma (s :: rest)).data = joinCommaChars ((s :: rest).map String.data) from rfl]
      rw [splitComma_joinCommaChars _ (by simp)
        (fun cs m => by
          obtain ⟨t, ht, rfl⟩ := List.mem_map.mp m
          exact h t ht)]
      rw [List.filterMap_map]
      rfl
  · intro input
    simp only [HttpRequest.construct]
    by_cases hlen : (setHosts input).length = 0
    · rw [if_pos hlen]
      simp [List.length_eq_zero.mp hlen]
    · rw [if_neg hlen]
      constructor
      · intro hcontr
        cases hcontr
      · intro he
        exact absurd (by rw [he] ; rfl) hlen

/-- C8 witness: a concrete host list with whitespace, a trailing slash
and a blank entry, and the construction criterion at the empty
string. -/
theorem c8_witness :
    setHosts (.str (joinComma l8)) = setHosts (.arr l8) ∧
    (HttpRequest.construct (.str "") = .error "At least one host must be provided" ↔
      setHosts (.str "") = []) :=
  ⟨(c8_setHosts l8 (by decide)).1, (c8_setHosts l8 (by decide)).2 (.str "")⟩

/-- C9 counterexample: a 301 with no `location` header on a
`useLeader` request does not recurse into the missing-uri throw as the
claim states; `findHostIndex` receives `undefined` and Node's
`url.parse` throws a `TypeError` before any recursion. -/
theorem c9_counterexample :
    fetchStep poolABC oLeader (.failure (some 301) none none) = .urlParseTypeError ∧
    ¬ fetchStep poolABC oLeader (.failure (some 301) none none) =
        .redirect poolABC
          { oLeader with uri := none, attempt := 1, redirectAttempt := 1,
                         attemptHostIndex := some 1 } := by
  decide

/-- C9 amended: for a non-leader request, a 301/302 with no `location`
header and remaining redirect budget makes `fetch` recurse with the
uri option absent, and that recursive call throws
`The uri option is required` whatever its transport would return; the
caller is shown neither the 301/302 response nor a backoff retry.  (On
a `useLeader` request the missing header instead reaches `url.parse`,
which throws a `TypeError`.) -/
theorem c9_amended (self : HttpRequest) (o : FetchOptions) (u : String) (st : Nat)
    (ec : Option String) (tr2 : TransportResult)
    (hl : o.useLeader = false) (hu : o.uri = some u)
    (hst : st = 301 ∨ st = 302) (hr : o.redirectAttempt < o.maxRedirects) :
    fetchStep self o (.failure (some st) none ec) =
      .redirect self
        { o with uri := none, attempt := o.attempt + 1
                 redirectAttempt := o.redirectAttempt + 1
                 attemptHostIndex := some (nextAttemptHostIndexOf self o) } ∧
    fetchStep self
      { o with uri := none, attempt := o.attempt + 1
               redirectAttempt := o.redirectAttempt + 1
               attemptHostIndex := some (nextAttemptHostIndexOf self o) } tr2 =
      .uriRequiredError := by
  constructor
  · have hnotle : ¬ o.maxRedirects ≤ o.redirectAttempt := by omega
    rcases hst with hcode | hcode <;> subst hcode <;>
      simp [fetchStep, hu, hl, hnotle]
  · rfl

/-- C9 witness: the amended behaviour at the three-host pool with a
302 and no location header. -/
theorem c9_witness :
    fetchStep poolABC { oLeader with useLeader := false }
        (.failure (some 302) none none) =
      .redirect poolABC
        { oLeader with useLeader := false, uri := none, attempt := 1,
                       redirectAttempt := 1, attemptHostIndex := some 1 } ∧
    fetchStep poolABC
        { oLeader with useLeader := false, uri := none, attempt := 1,
                       redirectAttempt := 1, attemptHostIndex := some 1 }
        (.failure (some 302) none none) =
      .uriRequiredError := by
  have h := c9_amended poolABC { oLeader with useLeader := false } "/db/query" 302 none
    (.failure (some 302) none none) rfl rfl (Or.inr rfl) (by decide)
  exact ⟨h.1, h.2⟩
